import Mathlib

/-!
Verification development for the AI Website Suggestion Assistant.

The repository has two Python entry points:
* `app.py` — batch reason generation (`detect_category`,
  `generate_reasons_for_websites`, `build_fallback_reasons`);
* `streamlit-app/app.py` — per-site reason generation
  (`extract_category`, `budget_present`, `deterministic_reason`,
  `reason_with_llm`, `to_slug`, `build_deep_link`).

Strings are modelled as Lean `String`/`List Char`; Python dicts that are
iterated in insertion order are modelled as association lists; the
language-model call is modelled as an `Except Unit _` value (exception or
returned payload), since it is external I/O.
-/

/-! ## Character helpers (Python `str.lower`, `\s`, character classes) -/

/-- Python whitespace class `\s` restricted to the ASCII range
(the queries handled by the app are ASCII apart from the rupee sign). -/
def pyIsSpace (c : Char) : Bool :=
  c = ' ' || c = '\t' || c = '\n' || c = '\r' || c = '\x0b' || c = '\x0c'

/-- Python `str.lower` on the ASCII range (non-ASCII characters are kept). -/
def pyLower (c : Char) : Char :=
  if 'A' ≤ c ∧ c ≤ 'Z' then Char.ofNat (c.toNat + 32) else c

def isAsciiDigit (c : Char) : Bool := '0' ≤ c && c ≤ '9'

def isAsciiAlpha (c : Char) : Bool := ('a' ≤ c && c ≤ 'z') || ('A' ≤ c && c ≤ 'Z')

def isAsciiAlnum (c : Char) : Bool := isAsciiAlpha c || isAsciiDigit c

/-- Lowercase ASCII letter or digit: the class `[a-z0-9]` of `to_slug`. -/
def isLowerAlnum (c : Char) : Bool := ('a' ≤ c && c ≤ 'z') || isAsciiDigit c

/-- Regex word character `\w` on the ASCII range. -/
def isWordChar (c : Char) : Bool := isAsciiAlnum c || c = '_'

/-- Lowercase a whole string (Python `s.lower()`). -/
def lowerStr (s : String) : String := String.mk (s.toList.map pyLower)

/-! ## `normalize_text` (streamlit-app): `re.sub(r"\s+", " ", s.lower()).strip()` -/

/-- Replace every maximal whitespace run by a single `' '`
(the effect of `re.sub(r"\s+", " ", ·)`). -/
def collapseWs : List Char → List Char
  | [] => []
  | [c] => [if pyIsSpace c then ' ' else c]
  | c :: d :: cs =>
    if pyIsSpace c && pyIsSpace d then collapseWs (d :: cs)
    else (if pyIsSpace c then ' ' else c) :: collapseWs (d :: cs)

/-- Python `str.strip()`: drop whitespace from both ends. -/
def stripWs (l : List Char) : List Char :=
  ((l.dropWhile pyIsSpace).reverse.dropWhile pyIsSpace).reverse

def normalize_text (s : String) : String :=
  String.mk (stripWs (collapseWs (s.toList.map pyLower)))

/-! ## Substring and word-boundary search -/

/-- Python `needle in hay` on character lists. -/
def hasSubstr (needle hay : List Char) : Bool :=
  hay.tails.any (fun t => needle.isPrefixOf t)

/-- Regex boundary test `\b` between an optional left and right character:
true when exactly one side is a word character (a string edge counts as a
non-word side). -/
def bdry : Option Char → Option Char → Bool
  | none, none => false
  | none, some r => isWordChar r
  | some l, none => isWordChar l
  | some l, some r => isWordChar l != isWordChar r

/-- `re.search(rf"\b{re.escape(kw)}\b", q)` for a literal keyword `kw`:
some occurrence of `kw` in `q` has a word boundary on both sides. -/
def reSearchWordB (kw q : List Char) : Bool :=
  (List.range (q.length + 1)).any fun i =>
    let a := q.take i
    let rest := q.drop i
    kw.isPrefixOf rest &&
      bdry a.getLast? rest.head? &&
      bdry (a ++ kw).getLast? (rest.drop kw.length).head?

/-! ## Category detection -/

/-- Loop body shared by both detectors: keep the running best category,
replacing it only on a strictly higher score (`if score > best_score`). -/
def stepBest (score : String × α → Nat) (acc : Option String × Nat) (p : String × α) :
    Option String × Nat :=
  if acc.2 < score p then (some p.1, score p) else acc

/-- `sum(1 for kw in keywords if kw.lower() in text)` from `detect_category`. -/
def substrScore (text : List Char) (kws : List String) : Nat :=
  kws.countP (fun kw => hasSubstr (kw.toList.map pyLower) text)

/-- `app.py` `detect_category`: lowercase the query, score each category by
substring matches of its keywords, return the best category when its score
is positive, else `none`.  The dict is modelled as an insertion-ordered
association list. -/
def detect_category (query : String) (categories_map : List (String × List String)) :
    Option String :=
  let text := query.toList.map pyLower
  let best := categories_map.foldl (stepBest (fun p => substrScore text p.2)) (none, 0)
  if 0 < best.2 then best.1 else none

/-- Per-category config object of `streamlit-app` `categories.json`:
`cfg.get("keywords", [])` is modelled by a `keywords` field defaulting to `[]`. -/
structure CatCfg where
  keywords : List String
deriving DecidableEq

/-- `sum(1 for kw in kws if re.search(rf"\b{re.escape(kw.lower())}\b", q))`
from `extract_category`. -/
def wbScore (q : List Char) (kws : List String) : Nat :=
  kws.countP (fun kw => reSearchWordB (kw.toList.map pyLower) q)

/-- `streamlit-app/app.py` `extract_category`: normalize the query, score
each category by whole-word keyword matches, return the best category when
its score is positive, else `none`. -/
def extract_category (query : String) (categories : List (String × CatCfg)) :
    Option String :=
  let q := (normalize_text query).toList
  let best := categories.foldl (stepBest (fun p => wbScore q p.2.keywords)) (none, 0)
  if 0 < best.2 then best.1 else none

example : detect_category "I want a laptop" [("electronics", ["laptop", "mobile"])] =
    some "electronics" := by decide

example : detect_category "hello" [("electronics", ["laptop"])] = none := by decide

example : extract_category "gaming laptop" [("electronics", CatCfg.mk ["laptop"])] =
    some "electronics" := by decide

example : extract_category "category talk" [("pets", CatCfg.mk ["cat"])] = none := by
  decide

/-! ## Budget detection and deterministic reasons (streamlit-app) -/

/-- The literal alternatives of the `budget_present` regex
`(₹|rs\.?|rupees?)\s*\d[\d,]*|under\s*\d[\d,]*`: a match exists iff some
suffix of the text starts with one of these literals, then optional
whitespace, then a digit (the trailing `[\d,]*` always matches). -/
def budgetLits : List (List Char) :=
  ["₹".toList, "rs.".toList, "rs".toList, "rupees".toList, "rupee".toList,
   "under".toList]

/-- `\s*\d` at the start of a character list. -/
def spacesThenDigit : List Char → Bool
  | [] => false
  | c :: cs => if pyIsSpace c then spacesThenDigit cs else isAsciiDigit c

def budgetMatchAt (l : List Char) : Bool :=
  budgetLits.any (fun p => p.isPrefixOf l && spacesThenDigit (l.drop p.length))

/-- `streamlit-app/app.py` `budget_present`: the regex above searched over
the normalized query. -/
def budget_present (query : String) : Bool :=
  (normalize_text query).toList.tails.any budgetMatchAt

/-- The budget hint appended by `deterministic_reason`. -/
def budgetHint : String := " Use price filters and deals to stay within your budget."

/-- The base sentence of `deterministic_reason`: the source assigns a
generic default and overwrites it for the three known categories. -/
def detBase (site_name category : String) : String :=
  if category = "electronics" then
    site_name ++ " offers a strong range of electronics with specs filters, trusted warranties, and quick delivery options."
  else if category = "fashion" then
    site_name ++ " features extensive fashion catalogs, frequent discounts, and easy returns for size or style."
  else if category = "furniture" then
    site_name ++ " lists sturdy furniture with style/size filters, clear specs, and delivery/assembly support."
  else
    site_name ++ " is a reliable place to browse " ++ category ++ " with broad selection, trusted sellers, and convenient delivery."

/-- `streamlit-app/app.py` `deterministic_reason`. -/
def deterministic_reason (site_name category query : String) : String :=
  detBase site_name category ++ (if budget_present query then budgetHint else "")

/-! ## Per-site model-backed reason (streamlit-app `reason_with_llm`) -/

/-- Python `str.strip()` on a string. -/
def pyStripStr (s : String) : String := String.mk (stripWs s.toList)

/-- `re.split(r"[.!?]", text)[0]`: the prefix before the first sentence
terminator. -/
def firstSentenceSeg (l : List Char) : List Char :=
  l.takeWhile (fun c => c ≠ '.' && c ≠ '!' && c ≠ '?')

/-- `streamlit-app/app.py` `reason_with_llm`.  The model call is external:
`invokeResult` is `.error ()` when `llm.invoke` raises, and `.ok content`
with `content : Option String` for `result.content` (`None` or a string).
Empty stripped text raises `ValueError`, caught by the same handler. -/
def reason_with_llm (invokeResult : Except Unit (Option String))
    (query category site_name site_url : String) : String :=
  match invokeResult with
  | .error _ => deterministic_reason site_name category query
  | .ok content =>
    let text := pyStripStr (content.getD "")
    if text = "" then deterministic_reason site_name category query
    else pyStripStr (String.mk (firstSentenceSeg text.toList)) ++ "."

/-! ## Site records and the batch generator (app.py) -/

/-- A `websites.json` record: `name` and `url` are required,
`w.get("strengths", [])` is modelled by a `strengths` field defaulting
to `[]`. -/
structure Site where
  name : String
  url : String
  strengths : List String

/-- JSON values as returned by `json.loads` (numbers restricted to
integers; none of the verified claims inspects numeric values). -/
inductive Json where
  | null
  | bool (b : Bool)
  | num (n : Int)
  | str (s : String)
  | arr (elems : List Json)
  | obj (fields : List (String × Json))

mutual

/-- Python `repr` of a JSON-decoded value (single-quoted strings; escape
sequences inside nested strings are not modelled — no claim inspects
nested values). -/
def pyRepr : Json → String
  | .null => "None"
  | .bool true => "True"
  | .bool false => "False"
  | .num n => toString n
  | .str s => "'" ++ s ++ "'"
  | .arr es => "[" ++ pyReprArr es ++ "]"
  | .obj fs => "\x7b" ++ pyReprObj fs ++ "\x7d"

def pyReprArr : List Json → String
  | [] => ""
  | [e] => pyRepr e
  | e :: es => pyRepr e ++ ", " ++ pyReprArr es

def pyReprObj : List (String × Json) → String
  | [] => ""
  | [(k, v)] => "'" ++ k ++ "': " ++ pyRepr v
  | (k, v) :: fs => "'" ++ k ++ "': " ++ pyRepr v ++ ", " ++ pyReprObj fs

end

/-- Python `str(v)` for a JSON-decoded value. -/
def pyStr : Json → String
  | .str s => s
  | v => pyRepr v

/-- `app.py` `build_fallback_reasons`: one templated sentence per site from
the category and the first two strengths.  The result dict is modelled as
an association list in insertion order. -/
def build_fallback_reasons (websites : List Site) (category user_query : String) :
    List (String × String) :=
  websites.map (fun w =>
    let strength_tip :=
      if w.strengths.isEmpty then "good selection and reliability"
      else String.intercalate ", " (w.strengths.take 2)
    (w.name, "Great for " ++ category ++ "; known for " ++ strength_tip ++ "."))

/-- `app.py` `generate_reasons_for_websites`.  The chain invocation and
`json.loads` are external: `modelOutcome` is `.error ()` when either the
model call or JSON parsing raises, and `.ok j` when the response parses to
the JSON value `j`.  A non-object `j` raises `ValueError`, caught by the
same handler; an object is filtered to the known site names. -/
def generate_reasons_for_websites (modelOutcome : Except Unit Json)
    (user_query category : String) (websites : List Site) : List (String × String) :=
  match modelOutcome with
  | .ok (.obj fields) =>
    let allowed := websites.map (fun w => w.name)
    fields.filterMap (fun kv =>
      if allowed.contains kv.1 then some (kv.1, pyStr kv.2) else none)
  | .ok _ => build_fallback_reasons websites category user_query
  | .error _ => build_fallback_reasons websites category user_query

/-! ## Slug construction (streamlit-app `to_slug`) -/

/-- Collapse runs of `'-'` to a single `'-'`
(the effect of `re.sub(r"-{2,}", "-", ·)`). -/
def squashDash : List Char → List Char
  | [] => []
  | [c] => [c]
  | c :: d :: cs =>
    if c = '-' && d = '-' then squashDash (d :: cs)
    else c :: squashDash (d :: cs)

/-- `re.sub(r"[^a-z0-9]+", "-", ·)`: each maximal run of characters
outside `[a-z0-9]` becomes one `'-'` — equivalently, replace each such
character by `'-'` and collapse the resulting dash runs. -/
def subNonAlnum (l : List Char) : List Char :=
  squashDash (l.map (fun c => if isLowerAlnum c then c else '-'))

/-- Python `str.strip("-")`. -/
def stripDash (l : List Char) : List Char :=
  ((l.dropWhile (fun c => c = '-')).reverse.dropWhile (fun c => c = '-')).reverse

/-- The slug candidate before the final `or "search"` default. -/
def slugCore (s : String) : List Char :=
  stripDash (squashDash (subNonAlnum (normalize_text s).toList))

/-- `streamlit-app/app.py` `to_slug` (`return s or "search"`). -/
def to_slug (s : String) : String :=
  if (slugCore s).isEmpty then "search" else String.mk (slugCore s)

example : to_slug "Blue Cotton Shirt" = "blue-cotton-shirt" := by decide
example : to_slug "  ??!  " = "search" := by decide
example : to_slug "a--b__c" = "a-b-c" := by decide
example : budget_present "laptop under ₹50,000" = true := by decide
example : budget_present "laptop under 50000" = true := by decide
example : budget_present "nice shoes" = false := by decide

/-! ## Deep-link building (streamlit-app `build_deep_link`) -/

/-- Split a character list at the first `':'`, if any. -/
def splitColon : List Char → Option (List Char × List Char)
  | [] => none
  | c :: cs =>
    if c = ':' then some ([], cs)
    else match splitColon cs with
      | some (a, b) => some (c :: a, b)
      | none => none

/-- Characters allowed after the first one in a URL scheme. -/
def schemeChar (c : Char) : Bool :=
  isAsciiAlnum c || c = '+' || c = '-' || c = '.'

/-- A valid URL scheme name: a letter followed by scheme characters. -/
def isSchemeName : List Char → Bool
  | [] => false
  | c :: cs => isAsciiAlpha c && cs.all schemeChar

/-- Drop a leading `scheme:` when present (`urllib.parse.urlparse`). -/
def dropScheme (l : List Char) : List Char :=
  match splitColon l with
  | some (before, after) => if isSchemeName before then after else l
  | none => l

/-- `urlparse(url).netloc`: present only when `//` follows the scheme,
running up to the next `/`, `?` or `#`. -/
def pyNetloc (l : List Char) : List Char :=
  match dropScheme l with
  | '/' :: '/' :: r => r.takeWhile (fun c => c ≠ '/' && c ≠ '?' && c ≠ '#')
  | _ => []

/-- UTF-8 encoding of a Unicode code point, as a list of byte values. -/
def utf8Bytes (n : Nat) : List Nat :=
  if n < 0x80 then [n]
  else if n < 0x800 then [0xC0 + n / 64, 0x80 + n % 64]
  else if n < 0x10000 then
    [0xE0 + n / 4096, 0x80 + (n / 64) % 64, 0x80 + n % 64]
  else
    [0xF0 + n / 262144, 0x80 + (n / 4096) % 64, 0x80 + (n / 64) % 64, 0x80 + n % 64]

def hexDigit (n : Nat) : Char :=
  if n < 10 then Char.ofNat ('0'.toNat + n) else Char.ofNat ('A'.toNat + n - 10)

def pctByte (b : Nat) : List Char := ['%', hexDigit (b / 16), hexDigit (b % 16)]

/-- Characters `urllib.parse.quote` leaves unescaped (unreserved plus the
default `safe='/'`). -/
def quoteSafe (c : Char) : Bool :=
  isAsciiAlnum c || c = '_' || c = '.' || c = '-' || c = '~' || c = '/'

/-- `urllib.parse.quote`: percent-encode the UTF-8 bytes of every unsafe
character, uppercase hex. -/
def pyQuote (l : List Char) : List Char :=
  (l.map (fun c =>
    if quoteSafe c then [c] else ((utf8Bytes c.toNat).map pctByte).flatten)).flatten

/-- The host substrings recognized by `build_deep_link`, in test order. -/
def knownHostMarkers : List String :=
  ["amazon.in", "flipkart.com", "croma.com", "reliancedigital.in", "myntra.com",
   "ajio.com", "pepperfry.com", "ikea.com", "urbanladder.com"]

/-- The lowercased host of a base URL (`urlparse(base_url).netloc.lower()`). -/
def hostOf (base_url : String) : List Char :=
  (pyNetloc base_url.toList).map pyLower

/-- `streamlit-app/app.py` `build_deep_link`. -/
def build_deep_link (site_name base_url query category : String) : String :=
  let host := hostOf base_url
  let q_norm := normalize_text query
  let q_enc := String.mk (pyQuote q_norm.toList)
  if hasSubstr "amazon.in".toList host then
    if ("amazon fashion".toList).isPrefixOf (site_name.toList.map pyLower)
        || category = "fashion" then
      "https://www.amazon.in/s?k=" ++ q_enc ++ "&i=apparel"
    else
      "https://www.amazon.in/s?k=" ++ q_enc
  else if hasSubstr "flipkart.com".toList host then
    "https://www.flipkart.com/search?q=" ++ q_enc
  else if hasSubstr "croma.com".toList host then
    "https://www.croma.com/searchB?q=" ++ q_enc
  else if hasSubstr "reliancedigital.in".toList host then
    "https://www.reliancedigital.in/search?q=" ++ q_enc
  else if hasSubstr "myntra.com".toList host then
    "https://www.myntra.com/" ++ to_slug q_norm ++ "?rawQuery=" ++ q_enc ++ "&p=1"
  else if hasSubstr "ajio.com".toList host then
    "https://www.ajio.com/search/?text=" ++ q_enc
  else if hasSubstr "pepperfry.com".toList host then
    "https://www.pepperfry.com/site_product/search?q=" ++ q_enc
  else if hasSubstr "ikea.com".toList host then
    "https://www.ikea.com/in/en/search/?q=" ++ q_enc
  else if hasSubstr "urbanladder.com".toList host then
    "https://www.urbanladder.com/products/search?keywords=" ++ q_enc
  else
    base_url

example : pyNetloc "https://www.amazon.in/s?k=x".toList = "www.amazon.in".toList := by
  decide

example : build_deep_link "Flipkart" "https://www.flipkart.com" "blue shirt" "fashion" =
    "https://www.flipkart.com/search?q=blue%20shirt" := by decide

example : build_deep_link "Myntra" "https://www.myntra.com" "Blue Cotton Shirt" "fashion" =
    "https://www.myntra.com/blue-cotton-shirt?rawQuery=blue%20cotton%20shirt&p=1" := by
  decide

example : build_deep_link "Example" "https://www.example.com" "shoes" "fashion" =
    "https://www.example.com" := by decide

/-! ## Lemmas about the best-score fold -/

theorem stepBest_pos {α : Type} (score : String × α → Nat) (acc : Option String × Nat)
    (p : String × α) (h : acc.2 < score p) :
    stepBest score acc p = (some p.1, score p) := by
  unfold stepBest; rw [if_pos h]

theorem stepBest_neg {α : Type} (score : String × α → Nat) (acc : Option String × Nat)
    (p : String × α) (h : ¬ acc.2 < score p) :
    stepBest score acc p = acc := by
  unfold stepBest; rw [if_neg h]

theorem stepBest_snd {α : Type} (score : String × α → Nat) (acc : Option String × Nat)
    (p : String × α) :
    acc.2 ≤ (stepBest score acc p).2 ∧ score p ≤ (stepBest score acc p).2 := by
  unfold stepBest
  split
  · next h => exact ⟨le_of_lt h, le_refl _⟩
  · next h => exact ⟨le_refl _, le_of_not_lt h⟩

theorem foldBest_snd_le {α : Type} (score : String × α → Nat) :
    ∀ (l : List (String × α)) (acc : Option String × Nat),
      acc.2 ≤ (l.foldl (stepBest score) acc).2 ∧
      ∀ p ∈ l, score p ≤ (l.foldl (stepBest score) acc).2 := by
  intro l
  induction l with
  | nil => intro acc; exact ⟨le_refl _, by simp⟩
  | cons p t ih =>
    intro acc
    simp only [List.foldl_cons]
    refine ⟨le_trans (stepBest_snd score acc p).1 (ih _).1, ?_⟩
    intro q hq
    rcases List.mem_cons.mp hq with rfl | hq
    · exact le_trans (stepBest_snd score acc q).2 (ih _).1
    · exact (ih _).2 q hq

theorem foldBest_cases {α : Type} (score : String × α → Nat) :
    ∀ (l : List (String × α)) (acc : Option String × Nat),
      l.foldl (stepBest score) acc = acc ∨
      ∃ p ∈ l, l.foldl (stepBest score) acc = (some p.1, score p) ∧ acc.2 < score p := by
  intro l
  induction l with
  | nil => intro acc; exact Or.inl rfl
  | cons p t ih =>
    intro acc
    simp only [List.foldl_cons]
    by_cases h : acc.2 < score p
    · have hstep : stepBest score acc p = (some p.1, score p) := by
        unfold stepBest; rw [if_pos h]
      rcases ih (stepBest score acc p) with heq | ⟨q, hq, heq, hlt⟩
      · exact Or.inr ⟨p, List.mem_cons_self .., by rw [heq, hstep], h⟩
      · refine Or.inr ⟨q, List.mem_cons_of_mem _ hq, heq, lt_trans h ?_⟩
        have : (stepBest score acc p).2 = score p := by rw [hstep]
        rw [← this]
        exact hlt
    · have hstep : stepBest score acc p = acc := by
        unfold stepBest; rw [if_neg h]
      rw [hstep]
      rcases ih acc with heq | ⟨q, hq, heq, hlt⟩
      · exact Or.inl heq
      · exact Or.inr ⟨q, List.mem_cons_of_mem _ hq, heq, hlt⟩

theorem foldBest_fixed {α : Type} (score : String × α → Nat) :
    ∀ (l : List (String × α)) (acc : Option String × Nat),
      (∀ p ∈ l, score p ≤ acc.2) → l.foldl (stepBest score) acc = acc := by
  intro l
  induction l with
  | nil => intro acc _; rfl
  | cons p t ih =>
    intro acc h
    simp only [List.foldl_cons]
    have hstep : stepBest score acc p = acc := by
      unfold stepBest
      rw [if_neg (not_lt_of_ge (h p (List.mem_cons_self ..)))]
    rw [hstep]
    exact ih acc (fun q hq => h q (List.mem_cons_of_mem _ hq))

/-- The shared shape of both detectors, as a function of the score. -/
def detectRun {α : Type} (score : String × α → Nat) (l : List (String × α)) :
    Option String :=
  let best := l.foldl (stepBest score) (none, 0)
  if 0 < best.2 then best.1 else none

theorem detect_category_eq_run (query : String) (m : List (String × List String)) :
    detect_category query m =
      detectRun (fun p => substrScore (query.toList.map pyLower) p.2) m := rfl

theorem extract_category_eq_run (query : String) (cats : List (String × CatCfg)) :
    extract_category query cats =
      detectRun (fun p => wbScore (normalize_text query).toList p.2.keywords) cats := rfl

/-- If an entry named `c` has positive score and every entry with a
different name scores strictly less, the detector returns `c`. -/
theorem detectRun_unique_max {α : Type} (score : String × α → Nat)
    (l : List (String × α)) (c : String) (k : α)
    (hmem : (c, k) ∈ l) (hpos : 0 < score (c, k))
    (hmax : ∀ p ∈ l, p.1 ≠ c → score p < score (c, k)) :
    detectRun score l = some c := by
  unfold detectRun
  have hub := foldBest_snd_le score l (none, 0)
  have hck : score (c, k) ≤ (l.foldl (stepBest score) (none, 0)).2 := hub.2 _ hmem
  rcases foldBest_cases score l (none, 0) with heq | ⟨q, hq, heq, _⟩
  · rw [heq] at hck
    exact absurd (lt_of_lt_of_le hpos hck) (by simp)
  · have hqc : q.1 = c := by
      by_contra hne
      have hlt := hmax q hq hne
      rw [heq] at hck
      exact absurd (lt_of_le_of_lt hck hlt) (lt_irrefl _)
    rw [heq]
    have hpos2 : 0 < score q := by
      rw [heq] at hck
      exact lt_of_lt_of_le hpos hck
    rw [if_pos hpos2, hqc]

/-- First-seen tie-breaking: an entry strictly beating everything before it
and at least matching everything after it wins. -/
theorem detectRun_first_seen {α : Type} (score : String × α → Nat)
    (l₁ l₂ : List (String × α)) (c : String) (k : α)
    (hpos : 0 < score (c, k))
    (h₁ : ∀ p ∈ l₁, score p < score (c, k))
    (h₂ : ∀ p ∈ l₂, score p ≤ score (c, k)) :
    detectRun score (l₁ ++ (c, k) :: l₂) = some c := by
  unfold detectRun
  rw [List.foldl_append, List.foldl_cons]
  have hsmall : (l₁.foldl (stepBest score) (none, 0)).2 < score (c, k) := by
    rcases foldBest_cases score l₁ (none, 0) with heq | ⟨q, hq, heq, _⟩
    · rw [heq]; exact hpos
    · rw [heq]; exact h₁ q hq
  rw [stepBest_pos score _ _ hsmall]
  rw [foldBest_fixed score l₂ (some c, score (c, k)) h₂]
  rw [if_pos hpos]

/-- C3: for every category table and query, the detector returns the
category with the strictly greatest keyword-match count when that count is
positive (in particular, of two categories with different match counts the
greater wins), and returns `none` — not an error — when no configured
keyword matches, including on an empty table.  Stated for both
`detect_category` (substring matching) and `extract_category`
(word-boundary matching). -/
theorem C3_detect_highest_count_or_none :
    (∀ (query : String) (m : List (String × List String)) (c : String)
        (k : List String), (c, k) ∈ m →
        0 < substrScore (query.toList.map pyLower) k →
        (∀ p ∈ m, p.1 ≠ c →
          substrScore (query.toList.map pyLower) p.2 <
            substrScore (query.toList.map pyLower) k) →
        detect_category query m = some c) ∧
    (∀ (query : String) (m : List (String × List String)),
        (∀ p ∈ m, substrScore (query.toList.map pyLower) p.2 = 0) →
        detect_category query m = none) ∧
    (∀ (query : String) (cats : List (String × CatCfg)) (c : String) (k : CatCfg),
        (c, k) ∈ cats →
        0 < wbScore (normalize_text query).toList k.keywords →
        (∀ p ∈ cats, p.1 ≠ c →
          wbScore (normalize_text query).toList p.2.keywords <
            wbScore (normalize_text query).toList k.keywords) →
        extract_category query cats = some c) ∧
    (∀ (query : String) (cats : List (String × CatCfg)),
        (∀ p ∈ cats, wbScore (normalize_text query).toList p.2.keywords = 0) →
        extract_category query cats = none) := by
  refine ⟨?_, ?_, ?_, ?_⟩
  · intro query m c k hmem hpos hmax
    rw [detect_category_eq_run]
    exact detectRun_unique_max _ m c k hmem hpos hmax
  · intro query m h
    rw [detect_category_eq_run]
    unfold detectRun
    rw [foldBest_fixed _ m (none, 0) (fun p hp => le_of_eq (h p hp))]
    rfl
  · intro query cats c k hmem hpos hmax
    rw [extract_category_eq_run]
    exact detectRun_unique_max _ cats c k hmem hpos hmax
  · intro query cats h
    rw [extract_category_eq_run]
    unfold detectRun
    rw [foldBest_fixed _ cats (none, 0) (fun p hp => le_of_eq (h p hp))]
    rfl

theorem C3_witness :
    detect_category "red shirt with my laptop and mobile"
      [("fashion", ["shirt"]), ("electronics", ["laptop", "mobile"])] =
        some "electronics" ∧
    detect_category "hello there" [("electronics", ["laptop", "mobile"])] = none ∧
    extract_category "red shirt with my laptop and mobile"
      [("fashion", CatCfg.mk ["shirt"]), ("electronics", CatCfg.mk ["laptop", "mobile"])] =
        some "electronics" ∧
    extract_category "hello there" [("electronics", CatCfg.mk ["laptop", "mobile"])] =
      none :=
  ⟨C3_detect_highest_count_or_none.1 _ _ "electronics" ["laptop", "mobile"]
      (by decide) (by decide) (by decide),
   C3_detect_highest_count_or_none.2.1 _ _ (by decide),
   C3_detect_highest_count_or_none.2.2.1 _ _ "electronics"
      (CatCfg.mk ["laptop", "mobile"]) (by decide) (by decide) (by decide),
   C3_detect_highest_count_or_none.2.2.2 _ _ (by decide)⟩

/-- C4: ties are resolved in favour of the first-seen category: an entry
whose score strictly beats every earlier entry and is at least the score of
every later entry (so, in particular, the first of several categories
attaining the same maximal positive score) is returned; a later category
replaces the running best only on a strictly higher score.  Stated for
both detectors. -/
theorem C4_tie_first_seen :
    (∀ (query : String) (l₁ l₂ : List (String × List String)) (c : String)
        (k : List String),
        0 < substrScore (query.toList.map pyLower) k →
        (∀ p ∈ l₁, substrScore (query.toList.map pyLower) p.2 <
          substrScore (query.toList.map pyLower) k) →
        (∀ p ∈ l₂, substrScore (query.toList.map pyLower) p.2 ≤
          substrScore (query.toList.map pyLower) k) →
        detect_category query (l₁ ++ (c, k) :: l₂) = some c) ∧
    (∀ (query : String) (l₁ l₂ : List (String × CatCfg)) (c : String) (k : CatCfg),
        0 < wbScore (normalize_text query).toList k.keywords →
        (∀ p ∈ l₁, wbScore (normalize_text query).toList p.2.keywords <
          wbScore (normalize_text query).toList k.keywords) →
        (∀ p ∈ l₂, wbScore (normalize_text query).toList p.2.keywords ≤
          wbScore (normalize_text query).toList k.keywords) →
        extract_category query (l₁ ++ (c, k) :: l₂) = some c) := by
  constructor
  · intro query l₁ l₂ c k hpos h₁ h₂
    rw [detect_category_eq_run]
    exact detectRun_first_seen _ l₁ l₂ c k hpos h₁ h₂
  · intro query l₁ l₂ c k hpos h₁ h₂
    rw [extract_category_eq_run]
    exact detectRun_first_seen _ l₁ l₂ c k hpos h₁ h₂

theorem C4_witness :
    detect_category "a laptop and a shirt"
      [("electronics", ["laptop"]), ("fashion", ["shirt"])] = some "electronics" ∧
    extract_category "a laptop and a shirt"
      [("electronics", CatCfg.mk ["laptop"]), ("fashion", CatCfg.mk ["shirt"])] =
        some "electronics" :=
  ⟨C4_tie_first_seen.1 "a laptop and a shirt" [] [("fashion", ["shirt"])]
      "electronics" ["laptop"] (by decide) (by decide) (by decide),
   C4_tie_first_seen.2 "a laptop and a shirt" [] [("fashion", CatCfg.mk ["shirt"])]
      "electronics" (CatCfg.mk ["laptop"]) (by decide) (by decide) (by decide)⟩

/-! ## Case-insensitivity of detection -/

theorem foldBest_congr {α β : Type} (sA : String × α → Nat) (sB : String × β → Nat) :
    ∀ (l₁ : List (String × α)) (l₂ : List (String × β)) (acc : Option String × Nat),
      l₁.map (fun p => (p.1, sA p)) = l₂.map (fun p => (p.1, sB p)) →
      l₁.foldl (stepBest sA) acc = l₂.foldl (stepBest sB) acc := by
  intro l₁
  induction l₁ with
  | nil =>
    intro l₂ acc h
    cases l₂ with
    | nil => rfl
    | cons q s => simp at h
  | cons p t ih =>
    intro l₂ acc h
    cases l₂ with
    | nil => simp at h
    | cons q s =>
      simp only [List.map_cons, List.cons.injEq] at h
      obtain ⟨hpq, hts⟩ := h
      have h1 : p.1 = q.1 := congrArg Prod.fst hpq
      have h2 : sA p = sB q := congrArg Prod.snd hpq
      simp only [List.foldl_cons]
      have hstep : stepBest sA acc p = stepBest sB acc q := by
        unfold stepBest; rw [h1, h2]
      rw [hstep]
      exact ih s _ hts

theorem substrScore_lower (text : List Char) (kws : List String) :
    substrScore text kws =
      (kws.map lowerStr).countP (fun s => hasSubstr s.toList text) := by
  rw [List.countP_map]
  rfl

theorem wbScore_lower (q : List Char) (kws : List String) :
    wbScore q kws = (kws.map lowerStr).countP (fun s => reSearchWordB s.toList q) := by
  rw [List.countP_map]
  rfl

theorem map_substrScore_factor (text : List Char) (m : List (String × List String)) :
    m.map (fun p => (p.1, substrScore text p.2)) =
      (m.map (fun p => (p.1, p.2.map lowerStr))).map
        (fun p => (p.1, p.2.countP (fun s => hasSubstr s.toList text))) := by
  rw [List.map_map]
  exact List.map_congr_left (fun p _ => by rw [substrScore_lower]; rfl)

theorem map_wbScore_factor (q : List Char) (m : List (String × CatCfg)) :
    m.map (fun p => (p.1, wbScore q p.2.keywords)) =
      (m.map (fun p => (p.1, p.2.keywords.map lowerStr))).map
        (fun p => (p.1, p.2.countP (fun s => reSearchWordB s.toList q))) := by
  rw [List.map_map]
  exact List.map_congr_left (fun p _ => by rw [wbScore_lower]; rfl)

/-- C10: detection is case-insensitive in the query and in the configured
keywords: two queries equal after lowercasing, run against two tables whose
keywords are equal after lowercasing, give the same result, for both
`detect_category` and `extract_category`. -/
theorem C10_detection_case_insensitive (q₁ q₂ : String)
    (hq : q₁.toList.map pyLower = q₂.toList.map pyLower) :
    (∀ m₁ m₂ : List (String × List String),
        m₁.map (fun p => (p.1, p.2.map lowerStr)) =
          m₂.map (fun p => (p.1, p.2.map lowerStr)) →
        detect_category q₁ m₁ = detect_category q₂ m₂) ∧
    (∀ c₁ c₂ : List (String × CatCfg),
        c₁.map (fun p => (p.1, p.2.keywords.map lowerStr)) =
          c₂.map (fun p => (p.1, p.2.keywords.map lowerStr)) →
        extract_category q₁ c₁ = extract_category q₂ c₂) := by
  constructor
  · intro m₁ m₂ hm
    rw [detect_category_eq_run, detect_category_eq_run]
    unfold detectRun
    have hfold : m₁.foldl (stepBest fun p => substrScore (q₁.toList.map pyLower) p.2)
        (none, 0) =
        m₂.foldl (stepBest fun p => substrScore (q₂.toList.map pyLower) p.2) (none, 0) := by
      apply foldBest_congr
      rw [hq]
      calc m₁.map (fun p => (p.1, substrScore (q₂.toList.map pyLower) p.2))
          = (m₁.map (fun p => (p.1, p.2.map lowerStr))).map
              (fun p => (p.1, p.2.countP
                (fun s => hasSubstr s.toList (q₂.toList.map pyLower)))) :=
            map_substrScore_factor _ _
        _ = (m₂.map (fun p => (p.1, p.2.map lowerStr))).map
              (fun p => (p.1, p.2.countP
                (fun s => hasSubstr s.toList (q₂.toList.map pyLower)))) := by rw [hm]
        _ = m₂.map (fun p => (p.1, substrScore (q₂.toList.map pyLower) p.2)) :=
            (map_substrScore_factor _ _).symm
    rw [hfold]
  · intro c₁ c₂ hc
    have hnorm : normalize_text q₁ = normalize_text q₂ := by
      unfold normalize_text; rw [hq]
    rw [extract_category_eq_run, extract_category_eq_run]
    unfold detectRun
    have hfold : c₁.foldl
        (stepBest fun p => wbScore (normalize_text q₁).toList p.2.keywords) (none, 0) =
        c₂.foldl (stepBest fun p => wbScore (normalize_text q₂).toList p.2.keywords)
          (none, 0) := by
      apply foldBest_congr
      rw [hnorm]
      calc c₁.map (fun p => (p.1, wbScore (normalize_text q₂).toList p.2.keywords))
          = (c₁.map (fun p => (p.1, p.2.keywords.map lowerStr))).map
              (fun p => (p.1, p.2.countP
                (fun s => reSearchWordB s.toList (normalize_text q₂).toList))) :=
            map_wbScore_factor _ _
        _ = (c₂.map (fun p => (p.1, p.2.keywords.map lowerStr))).map
              (fun p => (p.1, p.2.countP
                (fun s => reSearchWordB s.toList (normalize_text q₂).toList))) := by
            rw [hc]
        _ = c₂.map (fun p => (p.1, wbScore (normalize_text q₂).toList p.2.keywords)) :=
            (map_wbScore_factor _ _).symm
    rw [hfold]

theorem C10_witness :
    detect_category "I Want A LAPTOP" [("electronics", ["Laptop"])] =
      detect_category "i want a laptop" [("electronics", ["laptop"])] ∧
    extract_category "I Want A LAPTOP" [("electronics", CatCfg.mk ["Laptop"])] =
      extract_category "i want a laptop" [("electronics", CatCfg.mk ["laptop"])] :=
  ⟨(C10_detection_case_insensitive "I Want A LAPTOP" "i want a laptop" (by decide)).1
      _ _ (by decide),
   (C10_detection_case_insensitive "I Want A LAPTOP" "i want a laptop" (by decide)).2
      _ _ (by decide)⟩

/-! ## Fault handling of the two composers -/

/-- C5: any fault in the model call — a raised exception or empty content
for the per-site composer; a raised exception, unparseable response or
non-object JSON for the batch composer — is absorbed locally, and the
composer's output is exactly the deterministic fallback on the same
inputs. -/
theorem C5_fault_gives_fallback (query category site_name site_url : String)
    (websites : List Site) (invokeResult : Except Unit (Option String))
    (hfault : invokeResult = Except.error () ∨
      ∃ content, invokeResult = Except.ok content ∧ pyStripStr (content.getD "") = "") :
    reason_with_llm invokeResult query category site_name site_url =
      deterministic_reason site_name category query ∧
    ∀ modelOutcome : Except Unit Json,
      (modelOutcome = Except.error () ∨
        ∃ j, modelOutcome = Except.ok j ∧ ∀ fs, j ≠ Json.obj fs) →
      generate_reasons_for_websites modelOutcome query category websites =
        build_fallback_reasons websites category query := by
  constructor
  · rcases hfault with rfl | ⟨content, rfl, hempty⟩
    · rfl
    · simp [reason_with_llm, hempty]
  · intro mo hmo
    rcases hmo with rfl | ⟨j, rfl, hnotobj⟩
    · rfl
    · cases j with
      | obj fs => exact absurd rfl (hnotobj fs)
      | null => rfl
      | bool b => rfl
      | num n => rfl
      | str s => rfl
      | arr es => rfl

theorem C5_witness :
    reason_with_llm (Except.error ()) "a laptop" "electronics" "Amazon India"
        "https://www.amazon.in" =
      deterministic_reason "Amazon India" "electronics" "a laptop" ∧
    generate_reasons_for_websites (Except.error ()) "a laptop" "electronics"
        [Site.mk "Amazon India" "https://www.amazon.in" ["fast delivery"]] =
      build_fallback_reasons
        [Site.mk "Amazon India" "https://www.amazon.in" ["fast delivery"]]
        "electronics" "a laptop" :=
  ⟨(C5_fault_gives_fallback "a laptop" "electronics" "Amazon India"
      "https://www.amazon.in" [Site.mk "Amazon India" "https://www.amazon.in"
        ["fast delivery"]] (Except.error ()) (Or.inl rfl)).1,
   (C5_fault_gives_fallback "a laptop" "electronics" "Amazon India"
      "https://www.amazon.in" [Site.mk "Amazon India" "https://www.amazon.in"
        ["fast delivery"]] (Except.error ()) (Or.inl rfl)).2 _ (Or.inl rfl)⟩

theorem mem_build_fallback_key (websites : List Site) (category query : String)
    (e : String × String) (he : e ∈ build_fallback_reasons websites category query) :
    e.1 ∈ websites.map (fun w => w.name) := by
  unfold build_fallback_reasons at he
  obtain ⟨w, hw, hwe⟩ := List.mem_map.mp he
  rw [← hwe]
  exact List.mem_map.mpr ⟨w, hw, rfl⟩

/-- C8: every key of the batch generator's result names an input site, on
both the model-backed path (unknown keys are filtered out) and the
fallback path (keys are exactly the input names). -/
theorem C8_result_keys_are_site_names (modelOutcome : Except Unit Json)
    (query category : String) (websites : List Site) :
    ∀ e ∈ generate_reasons_for_websites modelOutcome query category websites,
      e.1 ∈ websites.map (fun w => w.name) := by
  intro e he
  cases modelOutcome with
  | error u => exact mem_build_fallback_key websites category query e he
  | ok j =>
    cases j with
    | obj fs =>
      simp only [generate_reasons_for_websites] at he
      rw [List.mem_filterMap] at he
      obtain ⟨kv, _, hf⟩ := he
      split at hf
      · next hc =>
        have hek : e.1 = kv.1 := by
          have := Option.some.inj hf
          rw [← this]
        rw [hek]
        exact List.mem_of_elem_eq_true hc
      · exact absurd hf (by simp)
    | null => exact mem_build_fallback_key websites category query e he
    | bool b => exact mem_build_fallback_key websites category query e he
    | num n => exact mem_build_fallback_key websites category query e he
    | str s => exact mem_build_fallback_key websites category query e he
    | arr es => exact mem_build_fallback_key websites category query e he

theorem C8_witness :
    "Amazon India" ∈
      ([Site.mk "Amazon India" "https://www.amazon.in" ["fast delivery"]].map
        (fun w => w.name)) :=
  C8_result_keys_are_site_names (Except.error ()) "a laptop" "electronics"
    [Site.mk "Amazon India" "https://www.amazon.in" ["fast delivery"]]
    ("Amazon India", "Great for electronics; known for fast delivery.") (by decide)

/-- C1 counterexample: with two input sites, a well-formed JSON object
response naming only the first yields a partial result — the first site
carries a model-derived reason while the second gets no entry at all,
which is neither "a model-derived reason for every site" nor "exactly the
deterministic fallback for all sites". -/
theorem C1_counterexample :
    generate_reasons_for_websites
        (Except.ok (Json.obj [("Amazon India", Json.str "Model reason")]))
        "a laptop" "electronics"
        [Site.mk "Amazon India" "https://www.amazon.in" ["fast delivery"],
         Site.mk "Flipkart" "https://www.flipkart.com" ["easy returns"]] =
      [("Amazon India", "Model reason")] ∧
    build_fallback_reasons
        [Site.mk "Amazon India" "https://www.amazon.in" ["fast delivery"],
         Site.mk "Flipkart" "https://www.flipkart.com" ["easy returns"]]
        "electronics" "a laptop" =
      [("Amazon India", "Great for electronics; known for fast delivery."),
       ("Flipkart", "Great for electronics; known for easy returns.")] :=
  ⟨rfl, rfl⟩

/-- C1 amended: the fallback is atomic for the failure cases — on a
model-call exception, a JSON parse failure, or a non-object response the
whole batch is exactly the deterministic fallback; but a response that
parses to a JSON object never falls back: unknown keys are dropped and
each returned entry is the stringified model value for a known site name,
so the result can cover only a subset of the input sites. -/
theorem C1_amended_batch_fallback_or_filter (modelOutcome : Except Unit Json)
    (query category : String) (websites : List Site) :
    generate_reasons_for_websites modelOutcome query category websites =
      build_fallback_reasons websites category query ∨
    ∃ fields, modelOutcome = Except.ok (Json.obj fields) ∧
      generate_reasons_for_websites modelOutcome query category websites =
        fields.filterMap (fun kv =>
          if (websites.map (fun w => w.name)).contains kv.1 then
            some (kv.1, pyStr kv.2)
          else none) := by
  cases modelOutcome with
  | error u => exact Or.inl rfl
  | ok j =>
    cases j with
    | obj fs => exact Or.inr ⟨fs, rfl, rfl⟩
    | null => exact Or.inl rfl
    | bool b => exact Or.inl rfl
    | num n => exact Or.inl rfl
    | str s => exact Or.inl rfl
    | arr es => exact Or.inl rfl

set_option maxRecDepth 8000 in
/-- C2 counterexample: the batch fallback `build_fallback_reasons` never
appends a budget hint, even on a query with a budget token (first three
conjuncts); and the per-site `deterministic_reason` appends the hint but
builds its sentence from a fixed category template, not from the site's
strengths (last two conjuncts). -/
theorem C2_counterexample :
    budget_present "laptop under 50000" = true ∧
    build_fallback_reasons
        [Site.mk "Amazon India" "https://www.amazon.in"
          ["fast delivery", "wide selection"]] "electronics" "laptop under 50000" =
      [("Amazon India",
        "Great for electronics; known for fast delivery, wide selection.")] ∧
    hasSubstr budgetHint.toList
      "Great for electronics; known for fast delivery, wide selection.".toList =
      false ∧
    deterministic_reason "Amazon India" "electronics" "laptop under 50000" =
      "Amazon India offers a strong range of electronics with specs filters, trusted warranties, and quick delivery options."
        ++ budgetHint ∧
    hasSubstr "fast delivery".toList
      (deterministic_reason "Amazon India" "electronics" "laptop under 50000").toList =
      false := by
  refine ⟨?_, ?_, ?_, ?_, ?_⟩ <;> decide

/-- C2 amended: the batch fallback builds
`"Great for {category}; known for {first two strengths, or a default}."`
from the category and the site's first two strengths and ignores the query
entirely (no budget hint); the per-site deterministic reason appends the
budget-filter hint exactly when the query matches the currency/"under"
budget pattern, but its base sentence is a fixed per-category template
around the site name and does not use the strengths. -/
theorem C2_amended_fallback_shapes :
    (∀ (websites : List Site) (category q₁ q₂ : String),
        build_fallback_reasons websites category q₁ =
          build_fallback_reasons websites category q₂) ∧
    (∀ (websites : List Site) (category query : String),
        build_fallback_reasons websites category query =
          websites.map (fun w =>
            (w.name, "Great for " ++ category ++ "; known for " ++
              (if w.strengths.isEmpty then "good selection and reliability"
               else String.intercalate ", " (w.strengths.take 2)) ++ "."))) ∧
    (∀ site_name category query : String,
        deterministic_reason site_name category query =
          detBase site_name category ++
            (if budget_present query = true then budgetHint else "")) :=
  ⟨fun _ _ _ _ => rfl, fun _ _ _ => rfl, fun _ _ _ => rfl⟩

/-! ## Deep links for unknown hosts -/

/-- C6: when no known retailer host marker occurs in the base URL's host,
`build_deep_link` returns the base URL unchanged. -/
theorem C6_unknown_host_unchanged (site_name base_url query category : String)
    (h : ∀ m ∈ knownHostMarkers, hasSubstr m.toList (hostOf base_url) = false) :
    build_deep_link site_name base_url query category = base_url := by
  have h₁ := h "amazon.in" (by simp [knownHostMarkers])
  have h₂ := h "flipkart.com" (by simp [knownHostMarkers])
  have h₃ := h "croma.com" (by simp [knownHostMarkers])
  have h₄ := h "reliancedigital.in" (by simp [knownHostMarkers])
  have h₅ := h "myntra.com" (by simp [knownHostMarkers])
  have h₆ := h "ajio.com" (by simp [knownHostMarkers])
  have h₇ := h "pepperfry.com" (by simp [knownHostMarkers])
  have h₈ := h "ikea.com" (by simp [knownHostMarkers])
  have h₉ := h "urbanladder.com" (by simp [knownHostMarkers])
  simp only [build_deep_link]
  rw [h₁, h₂, h₃, h₄, h₅, h₆, h₇, h₈, h₉]
  simp

theorem C6_witness :
    build_deep_link "Example Store" "https://www.example.com" "running shoes"
      "fashion" = "https://www.example.com" :=
  C6_unknown_host_unchanged "Example Store" "https://www.example.com"
    "running shoes" "fashion" (by decide)

/-! ## Slug shape lemmas -/

theorem head_dropWhile_false {α : Type} (p : α → Bool) :
    ∀ (l : List α) (c : α), (l.dropWhile p).head? = some c → p c = false := by
  intro l
  induction l with
  | nil => intro c h; simp [List.dropWhile] at h
  | cons a t ih =>
    intro c h
    rw [List.dropWhile_cons] at h
    split at h
    · exact ih c h
    · next hp =>
      simp only [List.head?_cons, Option.some.injEq] at h
      rw [← h]
      exact Bool.not_eq_true _ ▸ hp

theorem mem_squashDash (l : List Char) (c : Char) (h : c ∈ squashDash l) : c ∈ l := by
  induction l using squashDash.induct with
  | case1 => simp [squashDash] at h
  | case2 d => simpa [squashDash] using h
  | case3 a d cs hcond ih =>
    rw [squashDash] at h
    rw [if_pos hcond] at h
    exact List.mem_cons_of_mem _ (ih h)
  | case4 a d cs hcond ih =>
    rw [squashDash] at h
    rw [if_neg hcond] at h
    rcases List.mem_cons.mp h with rfl | h2
    · exact List.mem_cons_self ..
    · exact List.mem_cons_of_mem _ (ih h2)

theorem head?_squashDash (l : List Char) : (squashDash l).head? = l.head? := by
  induction l using squashDash.induct with
  | case1 => rfl
  | case2 d => rfl
  | case3 a d cs hcond ih =>
    rw [squashDash, if_pos hcond, ih]
    have ha : a = '-' := by
      rcases Bool.and_eq_true_iff.mp hcond with ⟨h1, _⟩
      exact decide_eq_true_eq.mp h1
    have hd : d = '-' := by
      rcases Bool.and_eq_true_iff.mp hcond with ⟨_, h2⟩
      exact decide_eq_true_eq.mp h2
    rw [List.head?_cons, List.head?_cons, ha, hd]
  | case4 a d cs hcond ih =>
    rw [squashDash, if_neg hcond]
    rfl

theorem chain'_squashDash (l : List Char) :
    List.Chain' (fun a b => a = '-' → b ≠ '-') (squashDash l) := by
  induction l using squashDash.induct with
  | case1 => exact List.chain'_nil
  | case2 d => exact List.chain'_singleton d
  | case3 a d cs hcond ih =>
    rw [squashDash, if_pos hcond]
    exact ih
  | case4 a d cs hcond ih =>
    rw [squashDash, if_neg hcond]
    rw [List.chain'_cons']
    refine ⟨?_, ih⟩
    intro y hy
    rw [head?_squashDash] at hy
    simp only [List.head?_cons, Option.mem_def, Option.some.injEq] at hy
    intro ha hb
    apply hcond
    rw [ha, hy, hb]
    decide

theorem stripDash_isPre (l : List Char) :
    stripDash l <+: l.dropWhile (fun c => c = '-') := by
  unfold stripDash
  apply List.reverse_suffix.mp
  rw [List.reverse_reverse]
  exact List.dropWhile_suffix _

theorem mem_stripDash (l : List Char) (c : Char) (h : c ∈ stripDash l) : c ∈ l := by
  obtain ⟨t, ht⟩ := stripDash_isPre l
  have hmem : c ∈ l.dropWhile (fun x => x = '-') := by
    rw [← ht]
    exact List.mem_append_left _ h
  exact (List.dropWhile_sublist _).subset hmem

theorem stripDash_head_ne_dash (l : List Char) : (stripDash l).head? ≠ some '-' := by
  intro h
  obtain ⟨t, ht⟩ := stripDash_isPre l
  cases hs : stripDash l with
  | nil => rw [hs] at h; simp at h
  | cons a s =>
    rw [hs] at h
    simp only [List.head?_cons, Option.some.injEq] at h
    rw [hs] at ht
    have hh : (l.dropWhile (fun c => c = '-')).head? = some a := by
      rw [← ht]; rfl
    have hfalse := head_dropWhile_false (fun c => c = '-') l a hh
    rw [h] at hfalse
    simp at hfalse

theorem stripDash_getLast_ne_dash (l : List Char) :
    (stripDash l).getLast? ≠ some '-' := by
  intro h
  unfold stripDash at h
  rw [List.getLast?_reverse] at h
  have hfalse := head_dropWhile_false (fun c => c = '-')
    ((l.dropWhile (fun c => c = '-')).reverse) '-' h
  simp at hfalse

theorem chain'_stripDash (l : List Char) (R : Char → Char → Prop)
    (h : List.Chain' R l) : List.Chain' R (stripDash l) := by
  have h1 : List.Chain' R (l.dropWhile (fun c => c = '-')) :=
    List.Chain'.suffix h (List.dropWhile_suffix _)
  exact List.Chain'.prefix h1 (stripDash_isPre l)

theorem chain'_no_dashdash (l : List Char)
    (h : List.Chain' (fun a b => a = '-' → b ≠ '-') l) :
    hasSubstr ['-', '-'] l = false := by
  by_contra hcon
  rw [Bool.not_eq_false] at hcon
  unfold hasSubstr at hcon
  rw [List.any_eq_true] at hcon
  obtain ⟨t, ht, hpre⟩ := hcon
  rw [List.mem_tails] at ht
  rw [ List.isPrefixOf_iff_prefix] at hpre
  obtain ⟨rest, hrest⟩ := hpre
  have hchain := List.Chain'.suffix h ht
  rw [← hrest] at hchain
  simp only [List.cons_append, List.nil_append] at hchain
  rw [List.chain'_cons] at hchain
  exact hchain.1 rfl rfl

/-- C7: every slug produced by `to_slug` consists only of lowercase ASCII
letters, digits and hyphens, and has no leading hyphen, no trailing hyphen
and no two consecutive hyphens. -/
theorem C7_slug_alphabet_and_hyphens (s : String) :
    (∀ c ∈ (to_slug s).toList, isLowerAlnum c = true ∨ c = '-') ∧
    (to_slug s).toList.head? ≠ some '-' ∧
    (to_slug s).toList.getLast? ≠ some '-' ∧
    hasSubstr ['-', '-'] (to_slug s).toList = false := by
  unfold to_slug
  by_cases h : (slugCore s).isEmpty
  · rw [if_pos h]
    refine ⟨?_, ?_, ?_, ?_⟩ <;> decide
  · rw [if_neg h]
    have htl : (String.mk (slugCore s)).toList = slugCore s := rfl
    rw [htl]
    refine ⟨?_, ?_, ?_, ?_⟩
    · intro c hc
      have h1 : c ∈ squashDash (subNonAlnum (normalize_text s).toList) :=
        mem_stripDash _ _ hc
      have h2 : c ∈ subNonAlnum (normalize_text s).toList := mem_squashDash _ _ h1
      have h3 : c ∈ (normalize_text s).toList.map
          (fun c => if isLowerAlnum c then c else '-') := mem_squashDash _ _ h2
      obtain ⟨a, _, ha⟩ := List.mem_map.mp h3
      by_cases hla : isLowerAlnum a
      · left; rw [← ha, if_pos hla]; exact hla
      · right; rw [← ha, if_neg hla]
    · exact stripDash_head_ne_dash _
    · exact stripDash_getLast_ne_dash _
    · exact chain'_no_dashdash _ (chain'_stripDash _ _ (chain'_squashDash _))

theorem C7_witness :
    (isLowerAlnum 'b' = true ∨ 'b' = '-') ∧
    (to_slug "Blue Cotton Shirt").toList.head? ≠ some '-' ∧
    hasSubstr ['-', '-'] (to_slug "Blue Cotton Shirt").toList = false :=
  ⟨(C7_slug_alphabet_and_hyphens "Blue Cotton Shirt").1 'b' (by decide),
   (C7_slug_alphabet_and_hyphens "Blue Cotton Shirt").2.1,
   (C7_slug_alphabet_and_hyphens "Blue Cotton Shirt").2.2.2⟩

/-! ## Slug non-emptiness -/

theorem mem_stripWs (l : List Char) (c : Char) (h : c ∈ stripWs l) : c ∈ l := by
  unfold stripWs at h
  rw [List.mem_reverse] at h
  have h2 := (List.dropWhile_sublist _).subset h
  rw [List.mem_reverse] at h2
  exact (List.dropWhile_sublist _).subset h2

theorem mem_collapseWs (l : List Char) (c : Char) (h : c ∈ collapseWs l) :
    c ∈ l ∨ c = ' ' := by
  induction l using collapseWs.induct with
  | case1 => simp [collapseWs] at h
  | case2 d =>
    rw [collapseWs] at h
    rcases List.mem_singleton.mp h with rfl
    by_cases hd : pyIsSpace d
    · right; rw [if_pos hd]
    · left; rw [if_neg hd]; exact List.mem_cons_self ..
  | case3 a d cs hcond ih =>
    rw [collapseWs, if_pos hcond] at h
    rcases ih h with h1 | h1
    · exact Or.inl (List.mem_cons_of_mem _ h1)
    · exact Or.inr h1
  | case4 a d cs hcond ih =>
    rw [collapseWs, if_neg hcond] at h
    rcases List.mem_cons.mp h with h1 | h1
    · by_cases hws : pyIsSpace a
      · right; rw [h1, if_pos hws]
      · left; rw [h1, if_neg hws]; exact List.mem_cons_self ..
    · rcases ih h1 with h2 | h2
      · exact Or.inl (List.mem_cons_of_mem _ h2)
      · exact Or.inr h2

theorem lowerAlnum_imp_alnum (c : Char) (h : isLowerAlnum c = true) :
    isAsciiAlnum c = true := by
  rcases Bool.or_eq_true_iff.mp h with h1 | h1
  · unfold isAsciiAlnum isAsciiAlpha
    rw [h1]
    simp
  · unfold isAsciiAlnum
    rw [h1]
    simp

theorem alnum_of_pyLower (a : Char) (h : isAsciiAlnum (pyLower a) = true) :
    isAsciiAlnum a = true := by
  unfold pyLower at h
  split at h
  · next hAZ =>
    unfold isAsciiAlnum isAsciiAlpha
    simp [hAZ.1, hAZ.2]
  · exact h

theorem pyLower_not_alnum (a : Char) (h : isAsciiAlnum a = false) :
    isLowerAlnum (pyLower a) = false := by
  by_contra hcon
  rw [Bool.not_eq_false] at hcon
  have := alnum_of_pyLower a (lowerAlnum_imp_alnum _ hcon)
  rw [h] at this
  exact Bool.false_ne_true this

/-- C9: `to_slug` always returns a non-empty string, and on inputs with no
ASCII letter or digit it returns the fixed fallback slug "search". -/
theorem C9_slug_nonempty_default (s : String) :
    to_slug s ≠ "" ∧
    ((∀ c ∈ s.toList, isAsciiAlnum c = false) → to_slug s = "search") := by
  constructor
  · unfold to_slug
    by_cases h : (slugCore s).isEmpty
    · rw [if_pos h]; decide
    · rw [if_neg h]
      intro hcon
      apply h
      have hnil : slugCore s = [] := congrArg String.toList hcon
      rw [hnil]
      rfl
  · intro hno
    have hmap : ∀ c ∈ (normalize_text s).toList, isLowerAlnum c = false := by
      intro c hc
      have hc2 : c ∈ collapseWs (s.toList.map pyLower) := mem_stripWs _ _ hc
      rcases mem_collapseWs _ _ hc2 with h1 | h1
      · obtain ⟨a, ha, rfl⟩ := List.mem_map.mp h1
        exact pyLower_not_alnum a (hno a ha)
      · rw [h1]; decide
    have hall : ∀ x ∈ squashDash (subNonAlnum (normalize_text s).toList), x = '-' := by
      intro x hx
      have hx2 := mem_squashDash _ _ hx
      have hx3 := mem_squashDash _ _ hx2
      obtain ⟨a, ha, hax⟩ := List.mem_map.mp hx3
      rw [← hax, if_neg (by rw [hmap a ha]; exact Bool.false_ne_true)]
    have hcore : slugCore s = [] := by
      show stripDash (squashDash (subNonAlnum (normalize_text s).toList)) = []
      have hdw : (squashDash (subNonAlnum (normalize_text s).toList)).dropWhile
          (fun c => c = '-') = [] :=
        List.dropWhile_eq_nil_iff.mpr (fun x hx => by
          rw [decide_eq_true_eq]
          exact hall x hx)
      unfold stripDash
      rw [hdw]
      rfl
    unfold to_slug
    rw [hcore]
    rfl

theorem C9_witness :
    (∀ c ∈ ("?!  ".toList), isAsciiAlnum c = false) ∧
    to_slug "?!  " ≠ "" ∧ to_slug "?!  " = "search" :=
  ⟨by decide, (C9_slug_nonempty_default "?!  ").1,
   (C9_slug_nonempty_default "?!  ").2 (by decide)⟩
